import Mathlib

/-!
Verification development for `set.go` of package `redisstringset`: a
Redis-backed string-set handle (`Set`) whose public methods each acquire the
handle's non-reentrant `sync.Mutex`, issue atomic Redis primitives
(SAdd, SRem, SIsMember, SMembers, SCard, Del), lower-case every value before
transmission, and swallow store errors (fail-closed reads, logged writes).

Modelling choices, read off the source:
* The lock: each handle owns one `sync.Mutex`, identified by `Set.id`; the
  held/free state of every mutex lives in `World.locks`.  `sync.Mutex` is not
  reentrant, so acquiring a mutex already held by the same goroutine blocks
  forever.  Every method is modelled as a function `World → Option result`;
  the value `none` models a call that never returns (self-deadlock).
* The Redis store: `World.store` maps each key to its member list.  A key
  that holds the empty list models an absent key (in Redis a set key with no
  members does not exist, and `Del` removes the key).  `SAdd` appends a
  member only when absent, `SRem` filters it out.
* Store errors: each remote primitive a method issues receives an explicit
  boolean saying whether that call returns an error; the error branch of the
  method is translated from the source (log and fall through / return the
  zero value).  Loops that issue one primitive per element receive a list of
  such booleans.
* Contexts: every go-redis command takes a `context.Context` first argument.
  `World.ctxTrace` records, in order, the context value each issued primitive
  was given.  The source passes `context.Background()` at every call site,
  which the embedding transcribes as `Ctx.background`.
* `strings.ToLower`, `strings.Split(·, ",")` and `strings.TrimSpace` are
  embedded as character-list functions (`lower`, `splitComma`, `trimSpace`);
  the members exercised here are ASCII.
* The `log.Logger` field is omitted: logging has no effect modelled here.
-/

namespace RedisSet

/-- A `context.Context` value passed to a Redis primitive.  `background`
models `context.Background()` (carries no deadline or cancellation);
`caller i` models a distinct per-call context supplied by a caller. -/
inductive Ctx where
  | background : Ctx
  | caller : Nat → Ctx
deriving DecidableEq

/-- True exactly on contexts supplied by a caller. -/
def isCallerCtx : Ctx → Bool
  | Ctx.background => false
  | Ctx.caller _ => true

/-- The Redis store: each key holds the member list of a set.  The empty
list models an absent key. -/
abbrev Store : Type := String → List String

/-- Pointwise update of a function at one argument. -/
def upd {α β : Type} [DecidableEq α] (f : α → β) (a : α) (b : β) : α → β :=
  fun x => if x = a then b else f x

/-- Global state threaded through every call: the Redis store, the held/free
state of every handle's mutex, and the trace of contexts passed to remote
primitive calls. -/
structure World where
  store : Store
  locks : Nat → Bool
  ctxTrace : List Ctx

/-- The `Set` handle of `set.go`.  `id` identifies the handle's `sync.Mutex`
inside `World.locks`; `key` is the bound Redis key.  The `redisClient`
reference is the shared `World.store`; the logger is omitted. -/
structure Set where
  id : Nat
  key : String
deriving DecidableEq

/-- `s.Lock()`: acquiring a free mutex marks it held; acquiring a mutex that
is already held blocks forever (`sync.Mutex` is non-reentrant), modelled as
`none`. -/
def mLock (w : World) (i : Nat) : Option World :=
  if w.locks i then none
  else some { w with locks := upd w.locks i true }

/-- `s.Unlock()` (the deferred unlock at method exit). -/
def mUnlock (w : World) (i : Nat) : World :=
  { w with locks := upd w.locks i false }

/-- Record the context passed to one issued remote primitive. -/
def recordCall (w : World) (c : Ctx) : World :=
  { w with ctxTrace := w.ctxTrace ++ [c] }

/-- `unicode.ToLower` on one character, restricted to ASCII as exercised
here: map A–Z to a–z, leave everything else. -/
def lowerChar (c : Char) : Char :=
  if 'A' ≤ c ∧ c ≤ 'Z' then Char.ofNat (c.toNat + 32) else c

/-- `strings.ToLower`. -/
def lower (s : String) : String := ⟨s.data.map lowerChar⟩

/-- Effect of `SADD key v` on the key's member list: Redis adds the member
only when absent (source of `Insert` idempotence). -/
def sadd (l : List String) (v : String) : List String :=
  if v ∈ l then l else l ++ [v]

/-- Effect of `SREM key v` on the key's member list. -/
def srem (l : List String) (v : String) : List String :=
  l.filter (fun x => x ≠ v)

/-- `strings.Split(input, ",")` on character lists: cut at every comma,
keeping empty pieces (Go does not collapse separators). -/
def splitCommaAux : List Char → List Char → List (List Char)
  | [], acc => [acc.reverse]
  | c :: cs, acc =>
    if c = ',' then acc.reverse :: splitCommaAux cs []
    else splitCommaAux cs (c :: acc)

/-- `strings.Split(input, ",")`. -/
def splitComma (s : String) : List String :=
  (splitCommaAux s.data []).map (fun l => ⟨l⟩)

/-- Whitespace recognised by `strings.TrimSpace` (ASCII range). -/
def isSpaceChar (c : Char) : Bool :=
  c = ' ' || c = '\t' || c = '\n' || c = '\r' || c = Char.ofNat 11 || c = Char.ofNat 12

/-- `strings.TrimSpace`. -/
def trimSpace (s : String) : String :=
  ⟨((s.data.dropWhile isSpaceChar).reverse.dropWhile isSpaceChar).reverse⟩

/-- `func (s *Set) Has(element string) bool`: lock, issue `SIsMember` with
`context.Background()` on the lower-cased element, return `false` on a store
error (`err`), else the membership result; unlock. -/
def Has (s : Set) (element : String) (err : Bool) (w : World) : Option (Bool × World) :=
  match mLock w s.id with
  | none => none
  | some w1 =>
    let w2 := recordCall w1 Ctx.background
    if err then some (false, mUnlock w2 s.id)
    else some (decide (lower element ∈ w2.store s.key), mUnlock w2 s.id)

/-- `func (s *Set) Insert(element string)`: lock, issue `SAdd` with
`context.Background()` on the lower-cased element; a store error is only
logged (the mutation is lost); unlock. -/
def Insert (s : Set) (element : String) (err : Bool) (w : World) : Option World :=
  match mLock w s.id with
  | none => none
  | some w1 =>
    let w2 := recordCall w1 Ctx.background
    if err then some (mUnlock w2 s.id)
    else some (mUnlock
      { w2 with store := upd w2.store s.key (sadd (w2.store s.key) (lower element)) } s.id)

/-- The loop body shared by `InsertMany`, `Union` and `Set`:
`for _, i := range elements { s.Insert(i) }` — each iteration calls the
public, locking `Insert` on the same handle.  `errs` supplies the store-error
outcome of each successive `SAdd`. -/
def insertLoop (s : Set) : List String → List Bool → World → Option World
  | [], _, w => some w
  | e :: es, errs, w =>
    match Insert s e (errs.headD false) w with
    | none => none
    | some w1 => insertLoop s es errs.tail w1

/-- `func (s *Set) InsertMany(elements ...string)`: lock, then call the
public `s.Insert` on every element while still holding the lock. -/
def InsertMany (s : Set) (elements : List String) (errs : List Bool) (w : World) : Option World :=
  match mLock w s.id with
  | none => none
  | some w1 =>
    match insertLoop s elements errs w1 with
    | none => none
    | some w2 => some (mUnlock w2 s.id)

/-- `func (s *Set) Remove(element string)`: lock, issue `SRem` with
`context.Background()` on the lower-cased element; a store error is only
logged; unlock. -/
def Remove (s : Set) (element : String) (err : Bool) (w : World) : Option World :=
  match mLock w s.id with
  | none => none
  | some w1 =>
    let w2 := recordCall w1 Ctx.background
    if err then some (mUnlock w2 s.id)
    else some (mUnlock
      { w2 with store := upd w2.store s.key (srem (w2.store s.key) (lower element)) } s.id)

/-- The loop body of `Subtract`: each iteration calls the public, locking
`Remove` on the same handle. -/
def removeLoop (s : Set) : List String → List Bool → World → Option World
  | [], _, w => some w
  | e :: es, errs, w =>
    match Remove s e (errs.headD false) w with
    | none => none
    | some w1 => removeLoop s es errs.tail w1

/-- `func (s *Set) Slice() []string`: lock, issue `SMembers` with
`context.Background()`, return the empty slice on a store error, else the
member list; unlock. -/
def Slice (s : Set) (err : Bool) (w : World) : Option (List String × World) :=
  match mLock w s.id with
  | none => none
  | some w1 =>
    let w2 := recordCall w1 Ctx.background
    if err then some ([], mUnlock w2 s.id)
    else some (w2.store s.key, mUnlock w2 s.id)

/-- `func (s *Set) Len() int`: lock, issue `SCard` with
`context.Background()`, return `0` on a store error, else the cardinality;
unlock. -/
def Len (s : Set) (err : Bool) (w : World) : Option (Nat × World) :=
  match mLock w s.id with
  | none => none
  | some w1 =>
    let w2 := recordCall w1 Ctx.background
    if err then some (0, mUnlock w2 s.id)
    else some ((w2.store s.key).length, mUnlock w2 s.id)

/-- `func (s *Set) Union(other *Set)`: lock `s`, read `other.Slice()` once
(this locks `other`, a different mutex unless the handles alias), then call
the public `s.Insert` on each item while still holding `s`'s lock.
`errSlice` is the error outcome of the `SMembers` on `other`. -/
def Union (s other : Set) (errSlice : Bool) (errs : List Bool) (w : World) : Option World :=
  match mLock w s.id with
  | none => none
  | some w1 =>
    match Slice other errSlice w1 with
    | none => none
    | some (items, w2) =>
      match insertLoop s items errs w2 with
      | none => none
      | some w3 => some (mUnlock w3 s.id)

/-- `func (s *Set) Subtract(other *Set)`: lock `s`, read `other.Slice()`
once, then call the public `s.Remove` on each item while still holding
`s`'s lock. -/
def Subtract (s other : Set) (errSlice : Bool) (errs : List Bool) (w : World) : Option World :=
  match mLock w s.id with
  | none => none
  | some w1 =>
    match Slice other errSlice w1 with
    | none => none
    | some (items, w2) =>
      match removeLoop s items errs w2 with
      | none => none
      | some w3 => some (mUnlock w3 s.id)

/-- The loop body of `Intersect`:
`for _, item := range members { if !other.Has(item) { s.Remove(item) } }`.
`other.Has` locks `other`; `s.Remove` is the public, locking `Remove` on the
same handle `s`.  `errsHas` and `errsRem` supply the store-error outcomes of
the successive `SIsMember` and `SRem` calls actually issued. -/
def intersectLoop (s other : Set) :
    List String → List Bool → List Bool → World → Option World
  | [], _, _, w => some w
  | item :: rest, errsHas, errsRem, w =>
    match Has other item (errsHas.headD false) w with
    | none => none
    | some (b, w1) =>
      if b then intersectLoop s other rest errsHas.tail errsRem w1
      else
        match Remove s item (errsRem.headD false) w1 with
        | none => none
        | some w2 => intersectLoop s other rest errsHas.tail errsRem.tail w2

/-- `func (s *Set) Intersect(other *Set)`: lock `s`, read `s.Slice()` —
the public, locking `Slice` on the same handle — then remove from `s` every
member absent from `other`. -/
def Intersect (s other : Set) (errSlice : Bool) (errsHas errsRem : List Bool)
    (w : World) : Option World :=
  match mLock w s.id with
  | none => none
  | some w1 =>
    match Slice s errSlice w1 with
    | none => none
    | some (members, w2) =>
      match intersectLoop s other members errsHas errsRem w2 with
      | none => none
      | some w3 => some (mUnlock w3 s.id)

/-- `func (s *Set) String() string`: lock, join `s.Slice()` — the public,
locking `Slice` on the same handle — with commas; unlock. -/
def stringMethod (s : Set) (err : Bool) (w : World) : Option (String × World) :=
  match mLock w s.id with
  | none => none
  | some w1 =>
    match Slice s err w1 with
    | none => none
    | some (items, w2) => some (String.intercalate "," items, mUnlock w2 s.id)

/-- `func (s *Set) Set(input string) error`: lock; an empty input returns
the parse error `string parsing failed` (modelled as `some msg`; `none` in
the first component is a nil error); otherwise split on commas, trim each
piece and call the public `s.Insert` on it while still holding the lock. -/
def setMethod (s : Set) (input : String) (errs : List Bool) (w : World) :
    Option (Option String × World) :=
  match mLock w s.id with
  | none => none
  | some w1 =>
    if input = "" then some (some "string parsing failed", mUnlock w1 s.id)
    else
      match insertLoop s ((splitComma input).map trimSpace) errs w1 with
      | none => none
      | some w2 => some (none, mUnlock w2 s.id)

/-- `func New(redisClient, key, initial ...string) *Set`: the returned
handle is `⟨i, key⟩` for a fresh mutex index `i`; when `initial` is
non-empty the constructor calls `s.InsertMany(initial...)`. -/
def New (i : Nat) (key : String) (initial : List String) (errs : List Bool)
    (w : World) : Option World :=
  if initial.length > 0 then InsertMany ⟨i, key⟩ initial errs w else some w

/-- `func (s *Set) Close()`: lock, issue `Del` with `context.Background()`
on the bound key; a store error is only logged (the key survives); unlock. -/
def Close (s : Set) (err : Bool) (w : World) : Option World :=
  match mLock w s.id with
  | none => none
  | some w1 =>
    let w2 := recordCall w1 Ctx.background
    if err then some (mUnlock w2 s.id)
    else some (mUnlock { w2 with store := upd w2.store s.key [] } s.id)

/-- `func Deduplicate(redisClient, key, input []string) []string`:
`ss := New(redisClient, key, input...)`, `defer ss.Close()`, and return
`ss.Slice()` (the deferred `Close` runs after `Slice`'s value is computed,
before the function returns). -/
def Deduplicate (i : Nat) (key : String) (input : List String)
    (errsIns : List Bool) (errSlice errClose : Bool) (w : World) :
    Option (List String × World) :=
  match New i key input errsIns w with
  | none => none
  | some w1 =>
    match Slice ⟨i, key⟩ errSlice w1 with
    | none => none
    | some (res, w2) =>
      match Close ⟨i, key⟩ errClose w2 with
      | none => none
      | some w3 => some (res, w3)

/-- The world a method that completes leaves behind: store replaced by `st`,
the handle's mutex acquired then released, one `context.Background()` call
recorded. -/
def afterCall (s : Set) (w : World) (st : Store) : World :=
  { store := st
    locks := upd (upd w.locks s.id true) s.id false
    ctxTrace := w.ctxTrace ++ [Ctx.background] }

/-- A world with an empty store, every mutex free, no calls recorded. -/
def w0 : World :=
  { store := fun _ => [], locks := fun _ => false, ctxTrace := [] }

/-- Handle bound to key `A` with mutex index 0. -/
def hA : Set := { id := 0, key := "A" }

/-- Handle bound to key `B` with mutex index 1. -/
def hB : Set := { id := 1, key := "B" }

/-- Store holding A = x, y and B = y, z (the spec's Union example). -/
def storeAB : Store :=
  fun k => if k = "A" then ["x", "y"] else if k = "B" then ["y", "z"] else []

/-- World over `storeAB`, all mutexes free. -/
def wAB : World := { store := storeAB, locks := fun _ => false, ctxTrace := [] }

/-- Store holding A = x, y, z and B = y, z, w (the spec's Intersect
example). -/
def storeI : Store :=
  fun k => if k = "A" then ["x", "y", "z"] else if k = "B" then ["y", "z", "w"] else []

/-- World over `storeI`, all mutexes free. -/
def wI : World := { store := storeI, locks := fun _ => false, ctxTrace := [] }

theorem mem_sadd (l : List String) (v : String) : v ∈ sadd l v := by
  unfold sadd
  split
  · assumption
  · simp

theorem sadd_of_mem {l : List String} {v : String} (h : v ∈ l) : sadd l v = l := by
  simp [sadd, h]

theorem has_ok (s : Set) (e : String) (w : World) (h : w.locks s.id = false) :
    Has s e false w = some (decide (lower e ∈ w.store s.key), afterCall s w w.store) := by
  simp [Has, mLock, h, recordCall, mUnlock, afterCall]

theorem insert_ok (s : Set) (e : String) (w : World) (h : w.locks s.id = false) :
    Insert s e false w =
      some (afterCall s w (upd w.store s.key (sadd (w.store s.key) (lower e)))) := by
  simp [Insert, mLock, h, recordCall, mUnlock, afterCall]

/-- C1: refuted by the code — each composite operation (InsertMany, Union,
Subtract, Intersect, the Set parser, the String stringer), called on a
handle whose mutex is free, self-deadlocks (result `none`): while holding
the handle's non-reentrant `sync.Mutex` it invokes the public locking
helper (`Insert`, `Remove` or `Slice`) on the same handle, which attempts
to reacquire the held lock.  This contradicts the claim that the internal
per-element step never reattempts the lock and that no public call
self-deadlocks. -/
theorem c1_composites_self_deadlock :
    InsertMany hA ["a"] [false] wAB = none ∧
    Union hA hB false [false, false] wAB = none ∧
    Subtract hA hB false [false, false] wAB = none ∧
    Intersect hA hB false [] [] wI = none ∧
    setMethod hA "a" [false] wAB = none ∧
    stringMethod hA false wAB = none :=
  ⟨rfl, rfl, rfl, rfl, rfl, rfl⟩

/-- C2: refuted by the code — `Deduplicate(conn, "k", ["a","A"," a ","b"])`
never returns the deduplicated sequence: `New` seeds the handle through
`InsertMany`, whose loop calls the locking `Insert` while `InsertMany`
already holds the handle's mutex, so the call self-deadlocks (result
`none`); neither the read-back nor the `Close` deletion is ever reached. -/
theorem c2_deduplicate_self_deadlocks :
    Deduplicate 0 "k" ["a", "A", " a ", "b"] [false, false, false, false]
      false false w0 = none :=
  rfl

/-- C3: confirmed — with the handle's mutex free, on a store error every
path is fail-closed and silent: `Has` returns `false`, `Slice` returns the
empty sequence, `Len` returns `0`, and `Insert`, `Remove` and `Close`
return with the store unchanged (the error is only logged).  None of the
six methods yields an error value: their embedded result types carry no
error component. -/
theorem c3_fail_closed_on_store_error (s : Set) (e : String) (w : World)
    (h : w.locks s.id = false) :
    Has s e true w = some (false, afterCall s w w.store) ∧
    Slice s true w = some ([], afterCall s w w.store) ∧
    Len s true w = some (0, afterCall s w w.store) ∧
    Insert s e true w = some (afterCall s w w.store) ∧
    Remove s e true w = some (afterCall s w w.store) ∧
    Close s true w = some (afterCall s w w.store) ∧
    (afterCall s w w.store).store = w.store := by
  refine ⟨?_, ?_, ?_, ?_, ?_, ?_, rfl⟩ <;>
    simp [Has, Slice, Len, Insert, Remove, Close, mLock, mUnlock, recordCall, afterCall, h]

theorem c3_witness :
    Has hA "x" true wAB = some (false, afterCall hA wAB wAB.store) ∧
    Slice hA true wAB = some ([], afterCall hA wAB wAB.store) ∧
    Len hA true wAB = some (0, afterCall hA wAB wAB.store) ∧
    Insert hA "x" true wAB = some (afterCall hA wAB wAB.store) ∧
    Remove hA "x" true wAB = some (afterCall hA wAB wAB.store) ∧
    Close hA true wAB = some (afterCall hA wAB wAB.store) ∧
    (afterCall hA wAB wAB.store).store = wAB.store :=
  c3_fail_closed_on_store_error hA "x" wAB rfl

/-- C4: confirmed — with the handle's mutex free and no store errors,
after `Insert e`, a `Has e'` for any `e'` agreeing with `e` up to letter
casing (their lower-cased forms coincide) returns `true`: both sides are
lower-cased before transmission to the store. -/
theorem c4_insert_then_has_case_insensitive (s : Set) (e e' : String) (w : World)
    (h : w.locks s.id = false) (hc : lower e' = lower e) :
    ∃ w1, Insert s e false w = some w1 ∧ (Has s e' false w1).map Prod.fst = some true := by
  refine ⟨_, insert_ok s e w h, ?_⟩
  rw [has_ok s e' _ (by simp [afterCall, upd])]
  have hm : lower e' ∈
      (afterCall s w (upd w.store s.key (sadd (w.store s.key) (lower e)))).store s.key := by
    simp [afterCall, upd, hc, mem_sadd]
  simp [hm]

theorem c4_witness :
    ∃ w1, Insert hA "X" false wAB = some w1 ∧ (Has hA "x" false w1).map Prod.fst = some true :=
  c4_insert_then_has_case_insensitive hA "X" "x" wAB rfl (by decide)

/-- C5: refuted by the code on the spec's own example — with A = x, y and
B = y, z, the call `A.Union(B)` self-deadlocks (result `none`) instead of
leaving A = x, y, z: after reading B's members, the loop calls the locking
`A.Insert` while `Union` already holds A's mutex. -/
theorem c5_union_example_self_deadlocks :
    Union hA hB false [false, false] wAB = none :=
  rfl

/-- C6: refuted by the code on the spec's own example — with A = x, y, z
and B = y, z, w, the call `A.Intersect(B)` self-deadlocks (result `none`)
instead of leaving A = y, z: `Intersect` calls the locking `A.Slice()`
while already holding A's mutex, so it deadlocks before reading a single
member. -/
theorem c6_intersect_example_self_deadlocks :
    Intersect hA hB false [] [] wI = none :=
  rfl

/-- C7: refuted by the code for every non-empty input — `Set("")` does
return the parse error, but `Set("a, b ,c")` self-deadlocks (result
`none`) instead of adding a, b, c: after the split and trim, the loop
calls the locking `Insert` while `Set` already holds the handle's mutex. -/
theorem c7_set_method :
    setMethod hA "a, b ,c" [false, false, false] wAB = none ∧
    (∃ w1, setMethod hA "" [] wAB = some (some "string parsing failed", w1)) :=
  ⟨rfl, ⟨_, rfl⟩⟩

/-- C8: counterexample — the claim says every remote primitive call
forwards the caller's per-call context; but `Has`, called on a free
handle, issues its `SIsMember` with the hardcoded `context.Background()`
(no caller context parameter even exists on the method), and the
background context is not a caller-supplied context. -/
theorem c8_has_issues_hardcoded_background_ctx :
    (Has hA "x" false wAB).map (fun r => r.2.ctxTrace) = some [Ctx.background] ∧
    isCallerCtx Ctx.background = false :=
  ⟨rfl, rfl⟩

/-- C8 (amended): every remote primitive call issued by `Has`, `Insert`,
`Remove`, `Slice`, `Len` and `Close` passes the hardcoded
`context.Background()` — which carries no deadline — whatever the store
error outcome; the component accepts no caller context and forwards
none. -/
theorem c8_every_remote_call_uses_background_ctx (s : Set) (e : String)
    (err : Bool) (w : World) (h : w.locks s.id = false) :
    (Has s e err w).map (fun r => r.2.ctxTrace) = some (w.ctxTrace ++ [Ctx.background]) ∧
    (Insert s e err w).map World.ctxTrace = some (w.ctxTrace ++ [Ctx.background]) ∧
    (Remove s e err w).map World.ctxTrace = some (w.ctxTrace ++ [Ctx.background]) ∧
    (Slice s err w).map (fun r => r.2.ctxTrace) = some (w.ctxTrace ++ [Ctx.background]) ∧
    (Len s err w).map (fun r => r.2.ctxTrace) = some (w.ctxTrace ++ [Ctx.background]) ∧
    (Close s err w).map World.ctxTrace = some (w.ctxTrace ++ [Ctx.background]) := by
  cases err <;>
    refine ⟨?_, ?_, ?_, ?_, ?_, ?_⟩ <;>
      simp [Has, Insert, Remove, Slice, Len, Close, mLock, mUnlock, recordCall, h]

theorem c8_witness :
    (Has hA "x" false wAB).map (fun r => r.2.ctxTrace)
        = some (wAB.ctxTrace ++ [Ctx.background]) ∧
    (Insert hA "x" false wAB).map World.ctxTrace
        = some (wAB.ctxTrace ++ [Ctx.background]) ∧
    (Remove hA "x" false wAB).map World.ctxTrace
        = some (wAB.ctxTrace ++ [Ctx.background]) ∧
    (Slice hA false wAB).map (fun r => r.2.ctxTrace)
        = some (wAB.ctxTrace ++ [Ctx.background]) ∧
    (Len hA false wAB).map (fun r => r.2.ctxTrace)
        = some (wAB.ctxTrace ++ [Ctx.background]) ∧
    (Close hA false wAB).map World.ctxTrace
        = some (wAB.ctxTrace ++ [Ctx.background]) :=
  c8_every_remote_call_uses_background_ctx hA "x" false wAB rfl

/-- C9: confirmed — with the handle's mutex free, if the lower-cased form
of `e` is already a member of the bound key, `Insert e` completes and
leaves the store unchanged at every key (`SAdd` of a present member is a
no-op). -/
theorem c9_insert_idempotent (s : Set) (e : String) (w : World)
    (h : w.locks s.id = false) (hm : lower e ∈ w.store s.key) :
    ∃ w1, Insert s e false w = some w1 ∧ w1.store = w.store := by
  refine ⟨_, insert_ok s e w h, ?_⟩
  funext k
  by_cases hk : k = s.key
  · simp [afterCall, upd, hk, sadd_of_mem hm]
  · simp [afterCall, upd, hk]

theorem c9_witness :
    ∃ w1, Insert hA "x" false wAB = some w1 ∧ w1.store = wAB.store :=
  c9_insert_idempotent hA "x" wAB rfl (by decide)

/-- C10: confirmed — with the handle's mutex free, `Set("")` returns the
parse error `string parsing failed`, the store is unchanged at every key,
and the context trace is unchanged: no remote primitive call was issued on
the error path. -/
theorem c10_set_empty_input_no_remote_call (s : Set) (w : World)
    (h : w.locks s.id = false) :
    ∃ w1, setMethod s "" [] w = some (some "string parsing failed", w1) ∧
      w1.store = w.store ∧ w1.ctxTrace = w.ctxTrace := by
  refine ⟨mUnlock { w with locks := upd w.locks s.id true } s.id, ?_, rfl, rfl⟩
  simp [setMethod, mLock, h, mUnlock]

theorem c10_witness :
    ∃ w1, setMethod hA "" [] wAB = some (some "string parsing failed", w1) ∧
      w1.store = wAB.store ∧ w1.ctxTrace = wAB.ctxTrace :=
  c10_set_empty_input_no_remote_call hA wAB rfl

end RedisSet
